import Mathlib

/-!
Verification of the Glasgow `jtag-xc9500` applet core: address translation
between JED fuse addresses, bitstream word addresses and device programming
addresses, and the erase/program/verify protocol state machines, shallowly
embedded from `software/glasgow/applet/jtag/xc9500.py`.
-/

namespace XC9500

/-- `BLOCK_FUSES` from the source: fuse bits per configuration block. -/
def BLOCK_FUSES : Nat := 432

/-- `BLOCK_WORDS` from the source: bitstream words per configuration block. -/
def BLOCK_WORDS : Nat := 15

/-- `GROUP_WORDS` from the source: populated address slots per group. -/
def GROUP_WORDS : Nat := 5

/-- Modelled from the spec: the device descriptor database
(`glasgow/database/xilinx/xc9500.py`) is not among the analyzed sources; the
spec fixes the reference part at 1620 bitstream words ("Index into the linear
1620-word bitstream", "1620 words total for the reference part"), organized
as 108 blocks of 15 words. -/
def bitstream_words : Nat := 1620

/-- Number of 15-word blocks of the reference part: 1620 / 15 = 108. -/
def block_count : Nat := bitstream_words / BLOCK_WORDS

/-- `jed_to_device_address` from the source: maps a JED fuse address to a
bitstream word address (9 32-bit fields then 6 24-bit fields per 432-fuse
block). All Python `//` and `%` are on non-negative ints, matching `Nat`
division; the subtraction `block_bit - 9 * 32` only occurs when
`block_bit ≥ 288`, so `Nat` subtraction agrees with Python. -/
def jed_to_device_address (jed_address : Nat) : Nat :=
  let block_num := jed_address / BLOCK_FUSES
  let block_bit := jed_address % BLOCK_FUSES
  let word_address := block_num * 15
  if block_bit < 9 * 32 then
    word_address + block_bit / 32
  else
    word_address + (9 + (block_bit - 9 * 32) / 24)

/-- `bitstream_to_device_address` from the source: maps a bitstream word
address to an FPGM/FVFY device address (32 device addresses per 15-word
block, in 4 groups of 8 of which 5 are populated). -/
def bitstream_to_device_address (word_address : Nat) : Nat :=
  let block_num := word_address / BLOCK_WORDS
  let block_off := word_address % BLOCK_WORDS
  32 * block_num + 8 * (block_off / GROUP_WORDS) + block_off % GROUP_WORDS

/-- Modelled from the spec: the JTAG IR opcode constants come from
`glasgow/arch/xilinx/xc9500.py`, which is not among the analyzed sources; the
spec identifies the instructions only by name (IDCODE, USERCODE, ISPEN,
ISPEX, FBULK, FPGM, FPGMI, FVFY, FVFYI), so they are modelled as an
enumeration. -/
inductive IR where
  | idcode | usercode | ispen | ispex | fbulk | fpgm | fpgmi | fvfy | fvfyi
deriving DecidableEq, Repr

/-- Modelled from the spec: the `DR_ISCONFIGURATION` register class
(50-bit payload: valid(1) + strobe(1) + address(16) + data(32)) comes from
`glasgow/arch/xilinx/xc9500.py`, not among the analyzed sources; following
the spec it is modelled field-wise. A constructor argument left out in the
source defaults to 0, modelled as `false`/`0`. -/
structure DRISCONFIGURATION where
  valid : Bool
  strobe : Bool
  address : Nat
  data : Nat
deriving DecidableEq, Repr

/-- Modelled from the spec: the `DR_ISDATA` register class (34-bit payload:
valid(1) + strobe(1) + data(32)), field-wise as for `DRISCONFIGURATION`. -/
structure DRISDATA where
  valid : Bool
  strobe : Bool
  data : Nat
deriving DecidableEq, Repr

/-- Modelled from the spec: the `DR_ISADDRESS` register class (18-bit
payload: valid(1) + strobe(1) + address(16)), field-wise as above. -/
structure DRISADDRESS where
  valid : Bool
  strobe : Bool
  address : Nat
deriving DecidableEq, Repr

/-- One operation issued to the lower JTAG TAP interface: `write_ir`,
`write_dr`/`exchange_dr` (tagged by the register shape shifted), a pure
`read_dr` of a given bit width, or `run_test_idle` for a cycle count. -/
inductive TapOp where
  | writeIR (ir : IR)
  | writeConf (r : DRISCONFIGURATION)
  | exchangeConf (r : DRISCONFIGURATION)
  | writeData (r : DRISDATA)
  | exchangeData (r : DRISDATA)
  | writeAddr (r : DRISADDRESS)
  | readDR (width : Nat)
  | runTestIdle (cycles : Nat)
deriving DecidableEq, Repr

/-- The loop of `_fvfy` (`for offset in range(count)`): each iteration
exchanges `ISCONFIGURATION(valid=1, strobe=1,
address=translate(address+offset+1))` and appends the `data` field of the
device response. `resp i` is the device response captured by the `i`-th
`exchange_dr`. -/
def fvfyGo (resp : Nat → DRISCONFIGURATION) (address : Nat) :
    Nat → Nat → List TapOp × List Nat
  | _, 0 => ([], [])
  | offset, c + 1 =>
      let dev_address := bitstream_to_device_address (address + offset + 1)
      let rest := fvfyGo resp address (offset + 1) c
      (TapOp.exchangeConf ⟨true, true, dev_address, 0⟩ :: rest.1,
       (resp offset).data :: rest.2)

/-- `_fvfy` from the source: select FVFY, write one addressing
`ISCONFIGURATION(valid=1, strobe=1, address=translate(address))` whose
response is discarded (`write_dr`), then run the exchange loop. Returns the
TAP trace and the list of words read. -/
def fvfy (address count : Nat) (resp : Nat → DRISCONFIGURATION) :
    List TapOp × List Nat :=
  let go := fvfyGo resp address 0 count
  (TapOp.writeIR IR.fvfy ::
     TapOp.writeConf ⟨true, true, bitstream_to_device_address address, 0⟩ ::
     go.1,
   go.2)

/-- The loop of `_fvfyi` (`while index < count`): each iteration reads a
34-bit `ISDATA`; a `valid=0` response is discarded without advancing
`index`, a `valid=1` response appends its `data` field and advances. The
device responses are modelled as the stream `resps`; `none` models the
source's unbounded wait when the stream is exhausted before `count` valid
responses arrive. -/
def fvfyiGo : Nat → List DRISDATA → Option (List Nat)
  | 0, _ => some []
  | _ + 1, [] => none
  | c + 1, r :: rest =>
      if r.valid then
        (fvfyiGo c rest).map (fun ws => r.data :: ws)
      else
        fvfyiGo (c + 1) rest

/-- `_fvfyi` from the source: select FVFYI, then collect `count` words via
the valid-filtering read loop. -/
def fvfyi (count : Nat) (resps : List DRISDATA) : Option (List Nat) :=
  fvfyiGo count resps

/-- The words carried by the valid responses of a response stream, in
stream order. -/
def validData (resps : List DRISDATA) : List Nat :=
  (resps.filter (fun r => r.valid)).map (fun r => r.data)

/-- The applet-level errors raised by the modelled operations
(`GlasgowAppletError` carriers in the source, distinguished by message). -/
inductive AppletError where
  | unknownDevice
  | sizeMismatch (words : Nat)
  | verifyFailed (offset : Nat)
  | eraseFailed
  | assertionFailed
deriving DecidableEq, Repr

/-- The loop of `_fpgm` (`for offset, word in enumerate(words)`): write
`ISCONFIGURATION(valid=1, strobe=(offset%15==14),
address=translate(address+offset), data=word)`; on a strobe word run 20000
idle cycles, exchange an address-only probe (`valid` cleared) and record a
warning (the warned offset) when the readback is not `valid=1 ∧ strobe=0`.
`resp i` is the readback captured at offset `i`. Returns the TAP trace and
the warned offsets; no path raises. -/
def fpgmGo (resp : Nat → DRISCONFIGURATION) (address : Nat) :
    Nat → List Nat → List TapOp × List Nat
  | _, [] => ([], [])
  | offset, word :: rest =>
      let dev_address := bitstream_to_device_address (address + offset)
      let strobe : Bool := offset % BLOCK_WORDS == BLOCK_WORDS - 1
      let tail := fpgmGo resp address (offset + 1) rest
      if strobe then
        let rb := resp offset
        (TapOp.writeConf ⟨true, strobe, dev_address, word⟩ ::
           TapOp.runTestIdle 20000 ::
           TapOp.exchangeConf ⟨false, false, dev_address, 0⟩ :: tail.1,
         if rb.valid && !rb.strobe then tail.2 else offset :: tail.2)
      else
        (TapOp.writeConf ⟨true, strobe, dev_address, word⟩ :: tail.1, tail.2)

/-- `_fpgm` from the source: select FPGM, run the write loop; if the word
list is empty, still write one `ISCONFIGURATION(valid=1,
address=translate(address))` (strobe and data left at 0). -/
def fpgm (address : Nat) (words : List Nat) (resp : Nat → DRISCONFIGURATION) :
    List TapOp × List Nat :=
  let go := fpgmGo resp address 0 words
  (TapOp.writeIR IR.fpgm :: go.1 ++
     (if words.isEmpty then
        [TapOp.writeConf ⟨true, false, bitstream_to_device_address address, 0⟩]
      else []),
   go.2)

/-- The TAP operations `_fpgm` issues for the word at offset `i`: the data
write, and on a block boundary the idle wait plus the address-only probe
with `valid` cleared. -/
def fpgmWordOps (a i w : Nat) : List TapOp :=
  TapOp.writeConf ⟨true, decide (i % 15 = 14), bitstream_to_device_address (a + i), w⟩ ::
    (if i % 15 = 14 then
       [TapOp.runTestIdle 20000,
        TapOp.exchangeConf ⟨false, false, bitstream_to_device_address (a + i), 0⟩]
     else [])

/-- The warning condition of `_fpgm`/`_fpgmi` at offset `i`: the offset is a
block boundary and the readback is not `valid=1 ∧ strobe=0`. -/
def warnsAt (resp : Nat → DRISCONFIGURATION) (i : Nat) : Bool :=
  (i % 15 == 14) && !((resp i).valid && !(resp i).strobe)

/-- The loop of `_fpgmi`: like `_fpgm` but over `ISDATA` (no address field);
the block-boundary probe is an all-clear `ISDATA`. -/
def fpgmiGo (resp : Nat → DRISDATA) : Nat → List Nat → List TapOp × List Nat
  | _, [] => ([], [])
  | offset, word :: rest =>
      let strobe : Bool := offset % BLOCK_WORDS == BLOCK_WORDS - 1
      let tail := fpgmiGo resp (offset + 1) rest
      if strobe then
        let rb := resp offset
        (TapOp.writeData ⟨true, strobe, word⟩ ::
           TapOp.runTestIdle 20000 ::
           TapOp.exchangeData ⟨false, false, 0⟩ :: tail.1,
         if rb.valid && !rb.strobe then tail.2 else offset :: tail.2)
      else
        (TapOp.writeData ⟨true, strobe, word⟩ :: tail.1, tail.2)

/-- `_fpgmi` from the source: select FPGMI, then run the autoincrement
write loop. -/
def fpgmi (words : List Nat) (resp : Nat → DRISDATA) : List TapOp × List Nat :=
  let go := fpgmiGo resp 0 words
  (TapOp.writeIR IR.fpgmi :: go.1, go.2)

/-- `program` from the source: asserts `address % 15 == 0` and
`len(words) % 15 == 0` (`none` models the `AssertionError`); the fast path
programs `words[:15]` via `_fpgm` at address `0` and the rest via `_fpgmi`,
the slow path hands everything to `_fpgm` at `address`. -/
def program (address : Nat) (words : List Nat) (fast : Bool)
    (confResp : Nat → DRISCONFIGURATION) (dataResp : Nat → DRISDATA) :
    Option (List TapOp × List Nat) :=
  if address % BLOCK_WORDS = 0 ∧ words.length % BLOCK_WORDS = 0 then
    if fast then
      let t1 := fpgm 0 (words.take BLOCK_WORDS) confResp
      let t2 := fpgmi (words.drop BLOCK_WORDS) dataResp
      some (t1.1 ++ t2.1, t1.2 ++ t2.2)
    else
      some (fpgm address words confResp)
  else
    none

/-- `bulk_erase` from the source: select FBULK, write
`ISADDRESS(valid=1, strobe=1, address=0xffff)`, run 200000 idle cycles, read
back `ISADDRESS` (`resp` is the decoded readback); fail with the erase error
unless the readback has `valid=1 ∧ strobe=0`. -/
def bulk_erase (resp : DRISADDRESS) : List TapOp × Option AppletError :=
  ([TapOp.writeIR IR.fbulk, TapOp.writeAddr ⟨true, true, 0xffff⟩,
    TapOp.runTestIdle 200000, TapOp.readDR 18],
   if resp.valid && !resp.strobe then none else some AppletError.eraseFailed)

/-- The TAP operations issued by the `_fvfyi` loop: one 34-bit `read_dr`
per iteration, until `count` valid responses arrive (truncated at stream
end, where the source would keep polling forever). -/
def fvfyiOps : Nat → List DRISDATA → List TapOp
  | 0, _ => []
  | _ + 1, [] => []
  | c + 1, r :: rest =>
      TapOp.readDR 34 :: (if r.valid then fvfyiOps c rest else fvfyiOps (c + 1) rest)

/-- `read` from the source: the fast path uses `_fvfy(address, 0)` just to
set the address counter and `_fvfyi(count)` for the data; the slow path
reads everything through `_fvfy`. `none` words model the unbounded
`_fvfyi` wait. -/
def read (address count : Nat) (fast : Bool)
    (confResp : Nat → DRISCONFIGURATION) (dataResps : List DRISDATA) :
    List TapOp × Option (List Nat) :=
  if fast then
    let t1 := fvfy address 0 confResp
    (t1.1 ++ TapOp.writeIR IR.fvfyi :: fvfyiOps count dataResps,
     fvfyi count dataResps)
  else
    let t := fvfy address count confResp
    (t.1, some t.2)

/-- The CLI operations of the applet's `interact`. -/
inductive Operation where
  | readBit | programBit | verifyBit | erase
deriving DecidableEq, Repr

/-- Modelled from the spec: the device descriptor resolved from the IDCODE
(the database itself is outside the analyzed sources); only the bitstream
word count is relevant here. -/
structure DeviceDescriptor where
  bitstream_words : Nat
deriving DecidableEq, Repr

/-- The device-side responses a session may observe, one oracle per
response-producing exchange kind. -/
structure DeviceResponses where
  readConf : Nat → DRISCONFIGURATION
  readData : List DRISDATA
  pgmConf : Nat → DRISCONFIGURATION
  pgmData : Nat → DRISDATA
  eraseAddr : DRISADDRESS

/-- How a modelled `interact` run ends: normal completion, a raised applet
error, or divergence in the unbounded `_fvfyi` wait. -/
inductive Outcome where
  | ok
  | error (e : AppletError)
  | hang
deriving DecidableEq, Repr

/-- The verify loop of `interact`: first offset where the device word
differs from the expected word, over the zip of the two lists. -/
def firstMismatch : Nat → List Nat → List Nat → Option Nat
  | _, [], _ => none
  | _, _ :: _, [] => none
  | offset, d :: ds, g :: gs =>
      if d ≠ g then some offset else firstMismatch (offset + 1) ds gs

/-- TAP operations of `identify()`: select IDCODE, read 32 bits. -/
def identTrace : List TapOp :=
  [TapOp.writeIR IR.idcode, TapOp.readDR 32]

/-- TAP operations of `read_usercode()`: select USERCODE, read 32 bits. -/
def usercodeTrace : List TapOp :=
  [TapOp.writeIR IR.usercode, TapOp.readDR 32]

/-- The operation-specific body of `interact` (the `try` block): the file
size check for `program-bit`/`verify-bit` precedes `programming_enable`;
each operation starts with the ISPEN select. -/
def runOp (op : Operation) (slow : Bool) (fileWords : List Nat)
    (dev : DeviceDescriptor) (rs : DeviceResponses) : List TapOp × Outcome :=
  match op with
  | Operation.readBit =>
      let r := read 0 dev.bitstream_words (!slow) rs.readConf rs.readData
      (TapOp.writeIR IR.ispen :: r.1,
       match r.2 with
       | some _ => Outcome.ok
       | none => Outcome.hang)
  | Operation.programBit =>
      if fileWords.length ≠ dev.bitstream_words then
        ([], Outcome.error (AppletError.sizeMismatch fileWords.length))
      else
        match program 0 fileWords (!slow) rs.pgmConf rs.pgmData with
        | some p => (TapOp.writeIR IR.ispen :: p.1, Outcome.ok)
        | none => ([TapOp.writeIR IR.ispen], Outcome.error AppletError.assertionFailed)
  | Operation.verifyBit =>
      if fileWords.length ≠ dev.bitstream_words then
        ([], Outcome.error (AppletError.sizeMismatch fileWords.length))
      else
        let r := read 0 dev.bitstream_words (!slow) rs.readConf rs.readData
        (TapOp.writeIR IR.ispen :: r.1,
         match r.2 with
         | none => Outcome.hang
         | some devWords =>
             match firstMismatch 0 devWords fileWords with
             | some off => Outcome.error (AppletError.verifyFailed off)
             | none => Outcome.ok)
  | Operation.erase =>
      let b := bulk_erase rs.eraseAddr
      (TapOp.writeIR IR.ispen :: b.1,
       match b.2 with
       | some e => Outcome.error e
       | none => Outcome.ok)

/-- `interact` from the source: identify (aborting on an unknown IDCODE
before the `try` block, so without the scoped disable), read the USERCODE,
run the selected operation inside `try`, and issue `programming_disable`
(ISPEX) in `finally` — on every exit except divergence, where the `finally`
is never reached. -/
def interact (op : Operation) (slow : Bool) (fileWords : List Nat)
    (device : Option DeviceDescriptor) (rs : DeviceResponses) :
    List TapOp × Outcome :=
  match device with
  | none => (identTrace, Outcome.error AppletError.unknownDevice)
  | some dev =>
      let r := runOp op slow fileWords dev rs
      match r.2 with
      | Outcome.hang => (identTrace ++ usercodeTrace ++ r.1, Outcome.hang)
      | o => (identTrace ++ usercodeTrace ++ r.1 ++ [TapOp.writeIR IR.ispex], o)

/-- An all-quiet response environment: every readback is all-zero. -/
def rs0 : DeviceResponses :=
  ⟨fun _ => ⟨false, false, 0, 0⟩, [], fun _ => ⟨false, false, 0, 0⟩,
   fun _ => ⟨false, false, 0⟩, ⟨false, false, 0⟩⟩

/-- C1: for every non-negative word address `w` the word-to-device
translation returns `32*(w / 15) + 8*((w % 15) / 5) + (w % 15) % 5`, and for
every valid block index `k` it maps word address `15*k` to device address
`32*k`. -/
theorem bitstream_to_device_address_formula (w k : Nat) (hk : k < block_count) :
    bitstream_to_device_address w = 32 * (w / 15) + 8 * ((w % 15) / 5) + (w % 15) % 5 ∧
    bitstream_to_device_address (15 * k) = 32 * k := by
  refine ⟨?_, ?_⟩ <;> simp only [bitstream_to_device_address, BLOCK_WORDS, GROUP_WORDS]
  omega

theorem bitstream_to_device_address_formula_witness :
    (3 : Nat) < block_count ∧
    (bitstream_to_device_address 7 = 32 * (7 / 15) + 8 * ((7 % 15) / 5) + (7 % 15) % 5 ∧
     bitstream_to_device_address (15 * 3) = 32 * 3) :=
  ⟨by decide, bitstream_to_device_address_formula 7 3 (by decide)⟩

/-- C2: for every fuse address `a < 46656` the fuse-to-word translation
returns `15*(a / 432) + (a % 432) / 32` when `a % 432 < 288` and
`15*(a / 432) + 9 + (a % 432 - 288) / 24` otherwise, and maps fuse address
`432*k` to word address `15*k` for every valid block index `k`. -/
theorem jed_to_device_address_formula (a k : Nat) (ha : a < 46656) (hk : k < block_count) :
    jed_to_device_address a =
      (if a % 432 < 288 then 15 * (a / 432) + (a % 432) / 32
       else 15 * (a / 432) + 9 + (a % 432 - 288) / 24) ∧
    jed_to_device_address (432 * k) = 15 * k := by
  simp only [jed_to_device_address, BLOCK_FUSES]
  constructor
  · split <;> omega
  · split <;> omega

theorem jed_to_device_address_formula_witness :
    ((433 : Nat) < 46656 ∧ (2 : Nat) < block_count) ∧
    ((jed_to_device_address 433 =
       if 433 % 432 < 288 then 15 * (433 / 432) + (433 % 432) / 32
       else 15 * (433 / 432) + 9 + (433 % 432 - 288) / 24) ∧
     jed_to_device_address (432 * 2) = 15 * 2) :=
  ⟨⟨by decide, by decide⟩, jed_to_device_address_formula 433 2 (by decide) (by decide)⟩

/-- C3: over `[0, bitstream_words)` the word-to-device translation is
injective, strictly increasing within a 15-word block, and never produces a
device address whose group-local offset (`mod 8`) is `≥ 5`. -/
theorem bitstream_to_device_address_props :
    (∀ w1 w2, w1 < bitstream_words → w2 < bitstream_words →
      bitstream_to_device_address w1 = bitstream_to_device_address w2 → w1 = w2) ∧
    (∀ w1 w2, w1 < bitstream_words → w2 < bitstream_words →
      w1 / BLOCK_WORDS = w2 / BLOCK_WORDS → w1 < w2 →
      bitstream_to_device_address w1 < bitstream_to_device_address w2) ∧
    (∀ w, w < bitstream_words → bitstream_to_device_address w % 8 < 5) := by
  refine ⟨?_, ?_, ?_⟩
  · intro w1 w2 _ _ h
    simp only [bitstream_to_device_address, BLOCK_WORDS, GROUP_WORDS] at h
    omega
  · intro w1 w2 _ _ hb hlt
    simp only [bitstream_to_device_address, BLOCK_WORDS, GROUP_WORDS] at hb ⊢
    omega
  · intro w _
    simp only [bitstream_to_device_address, BLOCK_WORDS, GROUP_WORDS]
    omega

/-- Unfolding lemma for the `_fvfy` loop: iteration `i` of the loop
exchanges at the device address translated from `address + offset + i + 1`
and collects `(resp (offset + i)).data`. -/
theorem fvfyGo_eq (resp : Nat → DRISCONFIGURATION) (address : Nat) :
    ∀ c offset,
      fvfyGo resp address offset c =
        ((List.range c).map (fun i => TapOp.exchangeConf
            ⟨true, true, bitstream_to_device_address (address + offset + i + 1), 0⟩),
         (List.range c).map (fun i => (resp (offset + i)).data)) := by
  intro c
  induction c with
  | zero => intro offset; simp [fvfyGo]
  | succ c ih =>
      intro offset
      simp only [fvfyGo, ih (offset + 1), List.range_succ_eq_map, List.map_cons,
        List.map_map]
      refine Prod.ext ?_ ?_ <;> simp only [Function.comp_def]
      · have : address + offset + 0 + 1 = address + offset + 1 := by omega
        rw [this]
        congr 1
        refine List.map_congr_left ?_
        intro i _
        have : address + (offset + 1) + i + 1 = address + offset + (i + 1) + 1 := by omega
        rw [this]
      · have : offset + 0 = offset := by omega
        rw [this]
        congr 1
        refine List.map_congr_left ?_
        intro i _
        have : offset + 1 + i = offset + (i + 1) := by omega
        rw [this]

/-- C4: `_fvfy(a, n)` issues exactly one addressing write with `valid=1,
strobe=1` at the device address translated from `a` (its response is
discarded, as `write_dr` captures nothing), then performs exactly `n`
exchanges, the `i`-th carrying `valid=1, strobe=1` and the device address
translated from `a+i+1`, and returns exactly the `n` data fields of the `n`
exchange responses in order. -/
theorem fvfy_spec (a n : Nat) (resp : Nat → DRISCONFIGURATION) :
    fvfy a n resp =
      (TapOp.writeIR IR.fvfy ::
         TapOp.writeConf ⟨true, true, bitstream_to_device_address a, 0⟩ ::
         (List.range n).map (fun i => TapOp.exchangeConf
            ⟨true, true, bitstream_to_device_address (a + i + 1), 0⟩),
       (List.range n).map (fun i => (resp i).data)) := by
  simp only [fvfy, fvfyGo_eq, Nat.add_zero, Nat.zero_add]

theorem fvfyiGo_take :
    ∀ (rs : List DRISDATA) (n : Nat), n ≤ (validData rs).length →
      fvfyiGo n rs = some ((validData rs).take n) := by
  intro rs
  induction rs with
  | nil =>
      intro n hn
      simp only [validData, List.filter_nil, List.map_nil, List.length_nil,
        Nat.le_zero] at hn
      subst hn
      simp [fvfyiGo, validData]
  | cons r rest ih =>
      intro n hn
      match n with
      | 0 => simp [fvfyiGo]
      | c + 1 =>
          by_cases hv : r.valid
          · have hvd : validData (r :: rest) = r.data :: validData rest := by
              simp [validData, hv]
            rw [hvd] at hn ⊢
            simp only [List.length_cons, Nat.add_le_add_iff_right] at hn
            simp only [fvfyiGo, hv, if_pos, ih c hn, List.take_succ_cons]
            rfl
          · have hvd : validData (r :: rest) = validData rest := by
              simp [validData, hv]
            rw [hvd] at hn ⊢
            simp only [fvfyiGo, hv, if_neg, Bool.false_eq_true, ite_false]
            exact ih (c + 1) hn

/-- C5: `_fvfyi(n)` returns exactly the data fields of the first `n` valid
responses in stream order — `valid=0` responses are discarded without
advancing the output index, `valid=1` responses append their `data` field —
and an injected stream of invalid responses followed by valid responses,
read with the number of valid responses, yields exactly their data words. -/
theorem fvfyi_spec :
    (∀ (n : Nat) (rs : List DRISDATA), n ≤ (validData rs).length →
      fvfyi n rs = some ((validData rs).take n)) ∧
    (∀ (invalids valids : List DRISDATA),
      (∀ r ∈ invalids, r.valid = false) → (∀ r ∈ valids, r.valid = true) →
      fvfyi valids.length (invalids ++ valids) =
        some (valids.map (fun r => r.data))) := by
  constructor
  · intro n rs hn
    exact fvfyiGo_take rs n hn
  · intro invalids valids hinv hval
    have hvd : validData (invalids ++ valids) = valids.map (fun r => r.data) := by
      simp only [validData, List.filter_append]
      rw [List.filter_eq_nil_iff.mpr (by intro r hr; simp [hinv r hr]),
        List.filter_eq_self.mpr (by intro r hr; simp [hval r hr])]
      simp
    have hlen : valids.length ≤ (validData (invalids ++ valids)).length := by
      rw [hvd, List.length_map]
    have := fvfyiGo_take (invalids ++ valids) valids.length hlen
    rw [fvfyi, this, hvd, List.take_of_length_le (by simp)]

theorem fvfyi_spec_witness :
    ((2 ≤ (validData [⟨false, false, 7⟩, ⟨true, false, 3⟩, ⟨true, false, 4⟩]).length ∧
      fvfyi 2 [⟨false, false, 7⟩, ⟨true, false, 3⟩, ⟨true, false, 4⟩] =
        some ((validData [⟨false, false, 7⟩, ⟨true, false, 3⟩, ⟨true, false, 4⟩]).take 2)) ∧
     ((∀ r ∈ [(⟨false, false, 9⟩ : DRISDATA)], r.valid = false) ∧
      (∀ r ∈ [(⟨true, false, 5⟩ : DRISDATA)], r.valid = true) ∧
      fvfyi [(⟨true, false, 5⟩ : DRISDATA)].length
          ([⟨false, false, 9⟩] ++ [⟨true, false, 5⟩]) =
        some ([(⟨true, false, 5⟩ : DRISDATA)].map (fun r => r.data)))) :=
  ⟨⟨by decide,
    fvfyi_spec.1 2 [⟨false, false, 7⟩, ⟨true, false, 3⟩, ⟨true, false, 4⟩] (by decide)⟩,
   by decide, by decide,
   fvfyi_spec.2 [⟨false, false, 9⟩] [⟨true, false, 5⟩] (by decide) (by decide)⟩

theorem fpgmGo_eq (resp : Nat → DRISCONFIGURATION) (a : Nat) :
    ∀ (ws : List Nat) (offset : Nat),
      fpgmGo resp a offset ws =
        (((List.enumFrom offset ws).map (fun p => fpgmWordOps a p.1 p.2)).flatten,
         (List.range' offset ws.length).filter (warnsAt resp)) := by
  intro ws
  induction ws with
  | nil =>
      intro offset
      simp [fpgmGo, List.enumFrom]
  | cons w rest ih =>
      intro offset
      have hr : List.range' offset (rest.length + 1) =
          offset :: List.range' (offset + 1) rest.length := List.range'_succ offset rest.length 1
      by_cases h : offset % 15 = 14
      · have hb : (offset % BLOCK_WORDS == BLOCK_WORDS - 1) = true := by
          simp [BLOCK_WORDS, h]
        cases hrb : (resp offset).valid && !(resp offset).strobe <;>
          simp [fpgmGo, hb, hrb, ih (offset + 1), List.enumFrom, fpgmWordOps,
            h, hr, List.filter_cons, warnsAt, BLOCK_WORDS]
      · have hb : (offset % BLOCK_WORDS == BLOCK_WORDS - 1) = false := by
          simp [BLOCK_WORDS, h]
        simp [fpgmGo, hb, ih (offset + 1), List.enumFrom, fpgmWordOps, h, hr,
          List.filter_cons, warnsAt, BLOCK_WORDS]

/-- C6: for a 15-aligned address and a word list whose length is a multiple
of 15, `_fpgm` writes word `i` as `ISCONFIGURATION(valid=1,
strobe=(i%15==14), address=translate(address+i), data=word)`, at each
strobe word runs 20000 idle cycles and exchanges an address-only probe with
`valid` cleared, records a warning exactly at the strobe offsets whose
readback is not `valid=1 ∧ strobe=0` while continuing to program (the
function is total over all responses and never raises), and for an empty
word list still issues exactly one `ISCONFIGURATION` write with `valid=1`. -/
theorem fpgm_spec (a : Nat) (words : List Nat) (resp : Nat → DRISCONFIGURATION)
    (ha : a % BLOCK_WORDS = 0) (hw : words.length % BLOCK_WORDS = 0) :
    fpgm a words resp =
      (TapOp.writeIR IR.fpgm ::
         ((words.enum.map (fun p => fpgmWordOps a p.1 p.2)).flatten ++
          (if words.isEmpty then
             [TapOp.writeConf ⟨true, false, bitstream_to_device_address a, 0⟩]
           else [])),
       (List.range words.length).filter (warnsAt resp)) ∧
    fpgm a [] resp =
      ([TapOp.writeIR IR.fpgm,
        TapOp.writeConf ⟨true, false, bitstream_to_device_address a, 0⟩], []) := by
  constructor
  · simp only [fpgm, fpgmGo_eq, List.range_eq_range']
    rfl
  · simp [fpgm, fpgmGo]

theorem fpgm_spec_witness :
    ((0 : Nat) % BLOCK_WORDS = 0 ∧ (List.replicate 15 (0 : Nat)).length % BLOCK_WORDS = 0) ∧
    (fpgm 0 (List.replicate 15 (0 : Nat)) rs0.pgmConf =
       (TapOp.writeIR IR.fpgm ::
          (((List.replicate 15 (0 : Nat)).enum.map (fun p => fpgmWordOps 0 p.1 p.2)).flatten ++
           (if (List.replicate 15 (0 : Nat)).isEmpty then
              [TapOp.writeConf ⟨true, false, bitstream_to_device_address 0, 0⟩]
            else [])),
        (List.range (List.replicate 15 (0 : Nat)).length).filter (warnsAt rs0.pgmConf)) ∧
     fpgm 0 [] rs0.pgmConf =
       ([TapOp.writeIR IR.fpgm,
         TapOp.writeConf ⟨true, false, bitstream_to_device_address 0, 0⟩], [])) :=
  ⟨⟨by decide, by decide⟩,
   fpgm_spec 0 (List.replicate 15 (0 : Nat)) rs0.pgmConf (by decide) (by decide)⟩

/-- C7: `bulk_erase` selects FBULK, writes exactly one `ISADDRESS` with
`valid=1, strobe=1, address=0xFFFF`, runs exactly 200000 idle cycles, reads
back `ISADDRESS`, and raises the erase-failed error if and only if the
readback does not have `valid=1 ∧ strobe=0`, completing without error
otherwise. -/
theorem bulk_erase_spec (resp : DRISADDRESS) :
    (bulk_erase resp).1 =
      [TapOp.writeIR IR.fbulk, TapOp.writeAddr ⟨true, true, 0xffff⟩,
       TapOp.runTestIdle 200000, TapOp.readDR 18] ∧
    ((bulk_erase resp).2 = some AppletError.eraseFailed ↔
      ¬(resp.valid = true ∧ resp.strobe = false)) ∧
    ((bulk_erase resp).2 = none ↔ (resp.valid = true ∧ resp.strobe = false)) := by
  refine ⟨rfl, ?_, ?_⟩ <;>
    cases hv : resp.valid <;> cases hs : resp.strobe <;>
      simp [bulk_erase, hv, hs]

/-- C10: fast-path `program(address, words, fast=True)` ignores its address
argument entirely: it programs `words[:15]` through `_fpgm` at device
address 0 and `words[15:]` through the autoincrement `_fpgmi`, so any two
addresses give the identical exchange sequence. -/
theorem program_fast_ignores_address (a1 a2 : Nat) (words : List Nat)
    (cr : Nat → DRISCONFIGURATION) (dr : Nat → DRISDATA)
    (h1 : a1 % BLOCK_WORDS = 0) (h2 : a2 % BLOCK_WORDS = 0)
    (hw : words.length % BLOCK_WORDS = 0) :
    program a1 words true cr dr =
      some ((fpgm 0 (words.take BLOCK_WORDS) cr).1 ++
              (fpgmi (words.drop BLOCK_WORDS) dr).1,
            (fpgm 0 (words.take BLOCK_WORDS) cr).2 ++
              (fpgmi (words.drop BLOCK_WORDS) dr).2) ∧
    program a1 words true cr dr = program a2 words true cr dr := by
  constructor <;> simp [program, h1, h2, hw]

theorem program_fast_ignores_address_witness :
    ((15 : Nat) % BLOCK_WORDS = 0 ∧ (30 : Nat) % BLOCK_WORDS = 0 ∧
     ([] : List Nat).length % BLOCK_WORDS = 0) ∧
    (program 15 ([] : List Nat) true rs0.pgmConf rs0.pgmData =
       some ((fpgm 0 (([] : List Nat).take BLOCK_WORDS) rs0.pgmConf).1 ++
               (fpgmi (([] : List Nat).drop BLOCK_WORDS) rs0.pgmData).1,
             (fpgm 0 (([] : List Nat).take BLOCK_WORDS) rs0.pgmConf).2 ++
               (fpgmi (([] : List Nat).drop BLOCK_WORDS) rs0.pgmData).2) ∧
     program 15 ([] : List Nat) true rs0.pgmConf rs0.pgmData =
       program 30 ([] : List Nat) true rs0.pgmConf rs0.pgmData) :=
  ⟨⟨by decide, by decide, by decide⟩,
   program_fast_ignores_address 15 30 ([] : List Nat) rs0.pgmConf rs0.pgmData
     (by decide) (by decide) (by decide)⟩

/-- C8, counterexample: with the reference device (1620 words) and a
1619-word bitstream file, `interact program-bit` does reject the file with
the fatal size error, but TAP operations have already been issued at that
point: the IDCODE and USERCODE selects and reads precede the size check,
and the scoped `programming_disable` still issues ISPEX — the trace is not
empty, contradicting "before any TAP operation is issued". -/
theorem interact_size_check_counterexample :
    interact Operation.programBit false (List.replicate 1619 (0 : Nat))
        (some ⟨1620⟩) rs0 =
      ([TapOp.writeIR IR.idcode, TapOp.readDR 32, TapOp.writeIR IR.usercode,
        TapOp.readDR 32, TapOp.writeIR IR.ispex],
       Outcome.error (AppletError.sizeMismatch 1619)) ∧
    (interact Operation.programBit false (List.replicate 1619 (0 : Nat))
        (some ⟨1620⟩) rs0).1 ≠ [] := by
  have hlen : (List.replicate 1619 (0 : Nat)).length = 1619 :=
    List.length_replicate 1619 0
  have h1 : runOp Operation.programBit false (List.replicate 1619 (0 : Nat))
      ⟨1620⟩ rs0 = ([], Outcome.error (AppletError.sizeMismatch 1619)) := by
    unfold runOp
    simp only [hlen]
    norm_num
  have heq : interact Operation.programBit false (List.replicate 1619 (0 : Nat))
      (some ⟨1620⟩) rs0 =
      ([TapOp.writeIR IR.idcode, TapOp.readDR 32, TapOp.writeIR IR.usercode,
        TapOp.readDR 32, TapOp.writeIR IR.ispex],
       Outcome.error (AppletError.sizeMismatch 1619)) := by
    unfold interact
    simp only [h1, identTrace, usercodeTrace, List.cons_append, List.nil_append,
      List.append_nil]
  exact ⟨heq, by rw [heq]; simp⟩

/-- C8, amended: for `program-bit`/`verify-bit`, a bitstream file whose
word count differs from the device word count is rejected with the fatal
size error before any programming TAP operation is issued — no ISPEN select
and no FPGM/FVFY traffic occurs; only the identification reads (IDCODE,
USERCODE) precede the rejection, and the scoped disable (ISPEX) follows
it. -/
theorem interact_size_check (op : Operation) (slow : Bool) (fileWords : List Nat)
    (dev : DeviceDescriptor) (rs : DeviceResponses)
    (hop : op = Operation.programBit ∨ op = Operation.verifyBit)
    (hlen : fileWords.length ≠ dev.bitstream_words) :
    interact op slow fileWords (some dev) rs =
      (identTrace ++ usercodeTrace ++ [TapOp.writeIR IR.ispex],
       Outcome.error (AppletError.sizeMismatch fileWords.length)) := by
  rcases hop with h | h <;> subst h <;> simp [interact, runOp, hlen]

theorem interact_size_check_witness :
    ((Operation.programBit = Operation.programBit ∨
      Operation.programBit = Operation.verifyBit) ∧
     [(0 : Nat)].length ≠ (DeviceDescriptor.mk 1620).bitstream_words) ∧
    interact Operation.programBit false [(0 : Nat)] (some ⟨1620⟩) rs0 =
      (identTrace ++ usercodeTrace ++ [TapOp.writeIR IR.ispex],
       Outcome.error (AppletError.sizeMismatch [(0 : Nat)].length)) :=
  ⟨⟨Or.inl rfl, by decide⟩,
   interact_size_check Operation.programBit false [0] ⟨1620⟩ rs0 (Or.inl rfl) (by decide)⟩

/-- C9: whenever a known device is found and the selected operation
terminates — completing normally or raising an applet error — the TAP trace
of `interact` ends with the ISPEX (programming disable) select, for every
operation, path flag, file content and device response: the `finally`-scoped
disable runs on every exit path of the enclosed operation. -/
theorem interact_always_disables (op : Operation) (slow : Bool)
    (fileWords : List Nat) (dev : DeviceDescriptor) (rs : DeviceResponses)
    (h : (interact op slow fileWords (some dev) rs).2 ≠ Outcome.hang) :
    (interact op slow fileWords (some dev) rs).1.getLast? =
      some (TapOp.writeIR IR.ispex) := by
  cases ho : (runOp op slow fileWords dev rs).2 with
  | ok =>
      simp only [interact, ho]
      exact List.getLast?_concat _
  | error e =>
      simp only [interact, ho]
      exact List.getLast?_concat _
  | hang =>
      exact absurd (by simp only [interact, ho]) h

theorem interact_always_disables_witness :
    (interact Operation.erase false [] (some ⟨1620⟩) rs0).2 ≠ Outcome.hang ∧
    (interact Operation.erase false [] (some ⟨1620⟩) rs0).1.getLast? =
      some (TapOp.writeIR IR.ispex) :=
  ⟨by decide, interact_always_disables Operation.erase false [] ⟨1620⟩ rs0 (by decide)⟩

end XC9500
